import Mathlib

/-!
Verification development for the FaaS platform Python SDKs.

The definitions below are a shallow embedding of the two Python client modules:

* `src/sdk/python/faas_sdk/client.py` — `FaaSPlatformClient` (`_request` retry loop,
  `parallel_map`, `FluentExecutor`, the `Snapshot`/`Branch` dataclasses,
  `PlatformError`);
* `src/sdks/python/faas_sdk.py` — `FaaSClient` (`execute` retry loop, `ClientMetrics`,
  `_get_cache_key` via MD5, the `run_python` / `run_javascript` / `run_bash` wrappers).

Network transports are modelled as oracles (functions from the attempt / call index to
the outcome the remote side produces); time, randomness and JSON decoding are abstracted
into the oracle's payload.  Machine arithmetic does not occur in the modelled code paths
except inside MD5, which is embedded over `Nat` with explicit reduction modulo `2 ^ 32`.
-/

namespace FaasSDK

/-- Decidable equality for `Except`, used to evaluate concrete traces. -/
instance {ε α : Type _} [DecidableEq ε] [DecidableEq α] : DecidableEq (Except ε α) := fun a b =>
  match a, b with
  | .ok a, .ok b => decidable_of_iff (a = b) (by simp)
  | .error a, .error b => decidable_of_iff (a = b) (by simp)
  | .ok _, .error _ => .isFalse (by simp)
  | .error _, .ok _ => .isFalse (by simp)

/-! ## Errors (client.py `PlatformError`, Python builtin exceptions) -/

/-- Embedding of `PlatformError(message, code, details)` from client.py. -/
structure PlatformError where
  message : String
  code : Option String := none
  details : Option String := none
deriving Repr, DecidableEq

/-- Python exceptions that the `sdks/python` module can raise: a `TypeError`
(dataclass constructor with missing required arguments), a bare `Exception`
with a message, or a propagated `PlatformError`. -/
inductive PyError where
  | typeError (msg : String)
  | exc (msg : String)
  | platform (e : PlatformError)
deriving Repr, DecidableEq

/-! ## FaaSPlatformClient._request (client.py lines 140-188)

The loop `for attempt in range(self.max_retries)` performs one network call per
iteration.  A 5xx response or an `aiohttp.ClientError` is retried after
`asyncio.sleep(2 ** attempt)` while `attempt < max_retries - 1`, and surfaces a
`PlatformError` on the last iteration; a non-ok response (status >= 400, below 500)
raises immediately with the status as `code` and the body as `details`; a timeout
raises immediately with code `TIMEOUT`; an ok response returns the decoded body.  -/

/-- Outcome of one network attempt as seen by `_request`: an HTTP response with a
status and a body (the body standing for the decoded JSON on the success path and
for `response.text()` on the error path), an `asyncio.TimeoutError`, or an
`aiohttp.ClientError` with its message. -/
inductive HttpOutcome where
  | http (status : Nat) (body : String)
  | timedOut
  | netErr (msg : String)
deriving Repr, DecidableEq

/-- The classification `_request` applies: 5xx responses and transport-level
`aiohttp.ClientError`s are retried, everything else is terminal. -/
def isRetryable : HttpOutcome → Bool
  | .http s _ => 500 ≤ s
  | .timedOut => false
  | .netErr _ => true

/-- Error raised on the final attempt for a retryable outcome
(`PlatformError(f'Server error: {status}')` resp. `PlatformError(f'Network error: {e}')`);
total on `HttpOutcome` for convenience, the `timedOut` row mirrors the dedicated
timeout error of `_request`. -/
def lastAttemptError (timeoutS : Nat) : HttpOutcome → PlatformError
  | .http s _ => ⟨"Server error: " ++ toString s, none, none⟩
  | .timedOut => ⟨"Request timeout after " ++ toString timeoutS ++ "s", some "TIMEOUT", none⟩
  | .netErr m => ⟨"Network error: " ++ m, none, none⟩

/-- Error raised for a non-ok, non-5xx response:
`PlatformError(f'Request failed: {status}', code=str(status), details=error_data)`. -/
def clientError (s : Nat) (body : String) : PlatformError :=
  ⟨"Request failed: " ++ toString s, some (toString s), some body⟩

/-- Fallthrough error `PlatformError(f'Max retries ({max_retries}) exceeded')`,
reached only when `range(max_retries)` is empty. -/
def maxRetriesError (n : Nat) : PlatformError :=
  ⟨"Max retries (" ++ toString n ++ ") exceeded", none, none⟩

/-- Observable trace of one `_request` call: number of network calls made, the
backoff delays slept (in seconds, in order), and the outcome. -/
structure ReqTrace where
  calls : Nat
  sleeps : List Nat
  result : Except PlatformError String
deriving Repr, DecidableEq

/-- The attempt loop of `_request`.  `attempt` is the current loop index and
`remaining = max_retries - attempt` the number of iterations left; the guard
`attempt < max_retries - 1` of the retry branches is exactly `remaining ≥ 2`. -/
def requestAttempts (outcomes : Nat → HttpOutcome) (timeoutS : Nat) :
    (attempt remaining : Nat) → ReqTrace
  | attempt, 0 => ⟨0, [], .error (maxRetriesError attempt)⟩
  | attempt, remaining + 1 =>
    match outcomes attempt with
    | .http s body =>
      if 500 ≤ s then
        if remaining ≠ 0 then
          let t := requestAttempts outcomes timeoutS (attempt + 1) remaining
          ⟨t.calls + 1, 2 ^ attempt :: t.sleeps, t.result⟩
        else ⟨1, [], .error (lastAttemptError timeoutS (outcomes attempt))⟩
      else if 400 ≤ s then ⟨1, [], .error (clientError s body)⟩
      else ⟨1, [], .ok body⟩
    | .timedOut => ⟨1, [], .error (lastAttemptError timeoutS .timedOut)⟩
    | .netErr _ =>
      if remaining ≠ 0 then
        let t := requestAttempts outcomes timeoutS (attempt + 1) remaining
        ⟨t.calls + 1, 2 ^ attempt :: t.sleeps, t.result⟩
      else ⟨1, [], .error (lastAttemptError timeoutS (outcomes attempt))⟩

/-- `FaaSPlatformClient._request` entry point: the loop starts at attempt 0 with
`max_retries` iterations available. -/
def pyRequest (outcomes : Nat → HttpOutcome) (timeoutS maxRetries : Nat) : ReqTrace :=
  requestAttempts outcomes timeoutS 0 maxRetries

/-! ## FaaSClient (sdks/python/faas_sdk.py) -/

/-- The `Runtime` enum. -/
inductive Runtime where
  | docker
  | firecracker
  | auto
deriving Repr, DecidableEq

/-- The `ClientMetrics` dataclass: four counters with default 0. -/
structure ClientMetrics where
  total_requests : Nat := 0
  cache_hits : Nat := 0
  total_latency_ms : Nat := 0
  errors : Nat := 0
deriving Repr, DecidableEq

/-- `ClientMetrics.cache_hit_rate`: `0.0` when `total_requests == 0`, otherwise
`cache_hits / total_requests` (exact rational standing for the Python float). -/
def ClientMetrics.cache_hit_rate (m : ClientMetrics) : ℚ :=
  if m.total_requests = 0 then 0 else (m.cache_hits : ℚ) / (m.total_requests : ℚ)

/-- `ClientMetrics.average_latency_ms`: `0.0` when `total_requests == 0`, otherwise
`total_latency_ms / total_requests`. -/
def ClientMetrics.average_latency_ms (m : ClientMetrics) : ℚ :=
  if m.total_requests = 0 then 0 else (m.total_latency_ms : ℚ) / (m.total_requests : ℚ)

/-- `ClientMetrics.error_rate`: `0.0` when `total_requests == 0`, otherwise
`errors / total_requests`. -/
def ClientMetrics.error_rate (m : ClientMetrics) : ℚ :=
  if m.total_requests = 0 then 0 else (m.errors : ℚ) / (m.total_requests : ℚ)

/-- The `ExecutionResult` dataclass of sdks/python/faas_sdk.py. -/
structure ExecutionResult where
  request_id : String
  output : Option String
  logs : Option String
  error : Option String
  duration_ms : Nat
  cache_hit : Bool := false
  runtime_used : Option Runtime := none
  stdout : Option String := none
  stderr : Option String := none
  exit_code : Option Int := none
deriving Repr, DecidableEq

/-- Fields of the decoded JSON body a successful (HTTP 200) response carries;
`data.get(key)` is `none` when the platform omitted the key. -/
structure WireData where
  request_id : Option String := none
  output : Option String := none
  logs : Option String := none
  error : Option String := none
  duration_ms : Option Nat := none
  stdout : Option String := none
  stderr : Option String := none
  exit_code : Option Int := none
deriving Repr, DecidableEq

/-- Outcome of one attempt of `FaaSClient.execute`: an HTTP response with status,
body text (used for the error message on non-200), measured elapsed milliseconds
and decoded data (used on 200), or an exception raised by the transport
(`except Exception as e` branch). -/
inductive AttemptOutcome where
  | httpResp (status : Nat) (body : String) (elapsed_ms : Nat) (data : WireData)
  | raised (msg : String)
deriving Repr, DecidableEq

/-- The classification implicit in `execute`: an attempt fails (and the loop
continues) when an exception is raised or the status is not 200. -/
def isFailedAttempt : AttemptOutcome → Bool
  | .raised _ => true
  | .httpResp s _ _ _ => s ≠ 200

/-- The `last_error` text recorded by a failed attempt: `str(e)` for an exception,
`f"HTTP {status}: {body}"` for a non-200 response. -/
def attemptErrorText : AttemptOutcome → String
  | .raised msg => msg
  | .httpResp s body _ _ => "HTTP " ++ toString s ++ ": " ++ body

/-- Python `str(None)` / `str(s)` for the `Optional[str]` variable `last_error`,
interpolated into the final exception message. -/
def optionStr : Option String → String
  | none => "None"
  | some s => s

/-- Mapping of a decoded 200 response into the returned `ExecutionResult`
(the body of the `return ExecutionResult(...)` statement of `execute`):
absent `request_id` defaults to `""`, absent `duration_ms` to the measured
elapsed time, `cache_hit` is the latency heuristic, `runtime_used` echoes the
effective runtime. -/
def mapExecResult (runtime : Runtime) (elapsed : Nat) (data : WireData)
    (hit : Bool) : ExecutionResult :=
  { request_id := data.request_id.getD ""
    output := data.output
    logs := data.logs
    error := data.error
    duration_ms := data.duration_ms.getD elapsed
    cache_hit := hit
    runtime_used := some runtime
    stdout := data.stdout
    stderr := data.stderr
    exit_code := data.exit_code }

/-- Observable trace of one `FaaSClient.execute` call: updated client metrics,
backoff delays slept (seconds, in order), number of network attempts started,
and the outcome (`Except.error` models `raise Exception(...)`). -/
structure ExecTrace where
  metrics : ClientMetrics
  sleeps : List ℚ
  calls : Nat
  result : Except String ExecutionResult
deriving Repr, DecidableEq

/-- The attempt loop of `FaaSClient.execute` (faas_sdk.py lines 390-438).
`attempt` is the loop index, `remaining = max_retries - attempt`; a delay of
`0.1 * 2 ** attempt` is slept at the top of every iteration with `attempt > 0`.
A response updates `total_requests` and `total_latency_ms`; a non-200 status
additionally increments `errors`, records `last_error` and continues; a 200
response counts a cache hit when the measured latency is below 10 ms and returns
the mapped `ExecutionResult`; a raised exception increments `errors` (only),
records `last_error` and continues.  When the loop ends the call raises
`Exception(f"Execution failed after {max_retries} retries: {last_error}")`. -/
def executeAttempts (outcomes : Nat → AttemptOutcome) (runtime : Runtime)
    (maxRetries : Nat) : (m : ClientMetrics) → (lastError : Option String) →
    (attempt remaining : Nat) → ExecTrace
  | m, lastError, _, 0 =>
    ⟨m, [], 0, .error ("Execution failed after " ++ toString maxRetries ++ " retries: "
      ++ optionStr lastError)⟩
  | m, _lastError, attempt, remaining + 1 =>
    let sleep : List ℚ := if attempt = 0 then [] else [(1 / 10 : ℚ) * 2 ^ attempt]
    match outcomes attempt with
    | .raised msg =>
      let m1 : ClientMetrics := { m with errors := m.errors + 1 }
      let t := executeAttempts outcomes runtime maxRetries m1 (some msg) (attempt + 1) remaining
      ⟨t.metrics, sleep ++ t.sleeps, t.calls + 1, t.result⟩
    | .httpResp s body elapsed data =>
      let m1 : ClientMetrics :=
        { m with total_requests := m.total_requests + 1,
                 total_latency_ms := m.total_latency_ms + elapsed }
      if s ≠ 200 then
        let m2 : ClientMetrics := { m1 with errors := m1.errors + 1 }
        let le := some ("HTTP " ++ toString s ++ ": " ++ body)
        let t := executeAttempts outcomes runtime maxRetries m2 le (attempt + 1) remaining
        ⟨t.metrics, sleep ++ t.sleeps, t.calls + 1, t.result⟩
      else
        let hit : Bool := decide (elapsed < 10)
        let m2 : ClientMetrics :=
          if hit then { m1 with cache_hits := m1.cache_hits + 1 } else m1
        ⟨m2, sleep, 1, .ok (mapExecResult runtime elapsed data hit)⟩

/-- `FaaSClient.execute` starting from client metrics state `m` (the client's
`self.metrics` at call time). -/
def pyExecuteFrom (m : ClientMetrics) (outcomes : Nat → AttemptOutcome)
    (runtime : Runtime) (maxRetries : Nat) : ExecTrace :=
  executeAttempts outcomes runtime maxRetries m none 0 maxRetries

/-- `FaaSClient.execute` on a freshly constructed client (all metrics zero). -/
def pyExecute (outcomes : Nat → AttemptOutcome) (runtime : Runtime)
    (maxRetries : Nat) : ExecTrace :=
  pyExecuteFrom {} outcomes runtime maxRetries

/-! ## MD5 (RFC 1321)

`FaaSClient._get_cache_key` calls `hashlib.md5(content.encode()).hexdigest()`.
The algorithm is embedded over `Nat`, reducing modulo `2 ^ 32` wherever the
reference algorithm works on 32-bit words. -/

/-- The 64 MD5 sine-derived round constants. -/
def md5K : List Nat :=
  [0xd76aa478, 0xe8c7b756, 0x242070db, 0xc1bdceee,
   0xf57c0faf, 0x4787c62a, 0xa8304613, 0xfd469501,
   0x698098d8, 0x8b44f7af, 0xffff5bb1, 0x895cd7be,
   0x6b901122, 0xfd987193, 0xa679438e, 0x49b40821,
   0xf61e2562, 0xc040b340, 0x265e5a51, 0xe9b6c7aa,
   0xd62f105d, 0x02441453, 0xd8a1e681, 0xe7d3fbc8,
   0x21e1cde6, 0xc33707d6, 0xf4d50d87, 0x455a14ed,
   0xa9e3e905, 0xfcefa3f8, 0x676f02d9, 0x8d2a4c8a,
   0xfffa3942, 0x8771f681, 0x6d9d6122, 0xfde5380c,
   0xa4beea44, 0x4bdecfa9, 0xf6bb4b60, 0xbebfbc70,
   0x289b7ec6, 0xeaa127fa, 0xd4ef3085, 0x04881d05,
   0xd9d4d039, 0xe6db99e5, 0x1fa27cf8, 0xc4ac5665,
   0xf4292244, 0x432aff97, 0xab9423a7, 0xfc93a039,
   0x655b59c3, 0x8f0ccc92, 0xffeff47d, 0x85845dd1,
   0x6fa87e4f, 0xfe2ce6e0, 0xa3014314, 0x4e0811a1,
   0xf7537e82, 0xbd3af235, 0x2ad7d2bb, 0xeb86d391]

/-- The 64 MD5 per-round left-rotation amounts. -/
def md5S : List Nat :=
  [7, 12, 17, 22, 7, 12, 17, 22, 7, 12, 17, 22, 7, 12, 17, 22,
   5, 9, 14, 20, 5, 9, 14, 20, 5, 9, 14, 20, 5, 9, 14, 20,
   4, 11, 16, 23, 4, 11, 16, 23, 4, 11, 16, 23, 4, 11, 16, 23,
   6, 10, 15, 21, 6, 10, 15, 21, 6, 10, 15, 21, 6, 10, 15, 21]

/-- Bitwise complement on a 32-bit word. -/
def wnot (x : Nat) : Nat := (x % 2 ^ 32) ^^^ (2 ^ 32 - 1)

/-- Left rotation of a 32-bit word by `n` places. -/
def rotl (x n : Nat) : Nat :=
  (((x % 2 ^ 32) <<< n) ||| ((x % 2 ^ 32) >>> (32 - n))) % 2 ^ 32

/-- The MD5 nonlinear function for operation index `i` (F, G, H, I by round). -/
def md5F (i b c d : Nat) : Nat :=
  if i < 16 then (b &&& c) ||| (wnot b &&& d)
  else if i < 32 then (d &&& b) ||| (wnot d &&& c)
  else if i < 48 then b ^^^ c ^^^ d
  else c ^^^ (b ||| wnot d)

/-- The MD5 message-word index for operation index `i`. -/
def md5g (i : Nat) : Nat :=
  if i < 16 then i
  else if i < 32 then (5 * i + 1) % 16
  else if i < 48 then (3 * i + 5) % 16
  else (7 * i) % 16

/-- The four 32-bit MD5 registers. -/
structure MD5State where
  a : Nat
  b : Nat
  c : Nat
  d : Nat
deriving Repr, DecidableEq

/-- The MD5 initialisation vector. -/
def md5Init : MD5State := ⟨0x67452301, 0xefcdab89, 0x98badcfe, 0x10325476⟩

/-- One of the 64 MD5 operations on a block with message words `M`. -/
def md5Step (M : List Nat) (st : MD5State) (i : Nat) : MD5State :=
  let f := md5F i st.b st.c st.d
  let t := (f + st.a + md5K.getD i 0 + M.getD (md5g i) 0) % 2 ^ 32
  ⟨st.d, (st.b + rotl t (md5S.getD i 0)) % 2 ^ 32, st.b, st.c⟩

/-- Processing one 16-word block: 64 operations, then addition into the state. -/
def md5Block (st : MD5State) (M : List Nat) : MD5State :=
  let e := (List.range 64).foldl (md5Step M) st
  ⟨(st.a + e.a) % 2 ^ 32, (st.b + e.b) % 2 ^ 32,
   (st.c + e.c) % 2 ^ 32, (st.d + e.d) % 2 ^ 32⟩

/-- Little-endian packing of bytes into 32-bit words (four bytes per word). -/
def toWords : List Nat → List Nat
  | b0 :: b1 :: b2 :: b3 :: rest =>
      (b0 % 256 + 256 * (b1 % 256) + 65536 * (b2 % 256) + 16777216 * (b3 % 256))
        :: toWords rest
  | _ => []

/-- Folding all 16-word blocks of the padded message into the state. -/
def md5Blocks (st : MD5State) (ws : List Nat) : MD5State :=
  match ws with
  | [] => st
  | w :: rest => md5Blocks (md5Block st ((w :: rest).take 16)) ((w :: rest).drop 16)
termination_by ws.length
decreasing_by
  simp only [List.length_drop, List.length_cons]
  omega

/-- Little-endian serialisation of a 64-bit length. -/
def le8 (x : Nat) : List Nat :=
  [x % 256, x / 256 % 256, x / 65536 % 256, x / 16777216 % 256,
   x / 4294967296 % 256, x / 1099511627776 % 256,
   x / 281474976710656 % 256, x / 72057594037927936 % 256]

/-- Little-endian serialisation of a 32-bit register into four bytes. -/
def le4 (x : Nat) : List Nat :=
  [x % 256, x / 256 % 256, x / 65536 % 256, x / 16777216 % 256]

/-- MD5 padding: a `0x80` byte, zeros up to 56 mod 64, then the 64-bit
little-endian bit length. -/
def padBytes (msg : List Nat) : List Nat :=
  msg ++ 128 :: List.replicate ((119 - msg.length % 64) % 64) 0
      ++ le8 ((8 * msg.length) % 2 ^ 64)

/-- The 16-byte MD5 digest of a byte sequence. -/
def md5Bytes (msg : List Nat) : List Nat :=
  let st := md5Blocks md5Init (toWords (padBytes msg))
  le4 st.a ++ le4 st.b ++ le4 st.c ++ le4 st.d

/-- Lowercase hexadecimal digit for a value below 16. -/
def hexDigit (n : Nat) : Char :=
  if n < 10 then Char.ofNat (48 + n) else Char.ofNat (87 + n)

/-- Two lowercase hex characters for one byte (as `hexdigest` prints it). -/
def byteHexChars (b : Nat) : List Char := [hexDigit (b / 16 % 16), hexDigit (b % 16)]

/-- UTF-8 bytes of a string (`content.encode()`). -/
def strBytes (s : String) : List Nat := s.toUTF8.data.toList.map (fun b => b.toNat)

/-- `hashlib.md5(s.encode()).hexdigest()`. -/
def md5Hex (s : String) : String :=
  String.mk ((md5Bytes (strBytes s)).map byteHexChars).flatten

/-- `FaaSClient._get_cache_key(content)` (faas_sdk.py lines 337-339). -/
def getCacheKey (content : String) : String := md5Hex content

/-- The derived key of `execute` when caching is enabled and no explicit key is
given (faas_sdk.py lines 372-373): `self._get_cache_key(f"{command}:{image}")`. -/
def deriveCacheKey (command image : String) : String :=
  getCacheKey (command ++ ":" ++ image)

/-! ## Language wrappers and POSIX shell quoting (faas_sdk.py lines 440-495)

`run_python` wraps code as `python3 -c '<escaped>'` escaping only single quotes as
`'\''`; `run_javascript` wraps as `node -e '<escaped>'` doubling backslashes and
prefixing single quotes with a backslash; `run_bash` wraps as `sh -c "<escaped>"`
doubling backslashes and backslash-prefixing double quotes and dollars.  The
round-trip property is stated against a model of POSIX shell word unquoting. -/

/-- The single-quote character. -/
def sq : Char := Char.ofNat 39

/-- The double-quote character. -/
def dq : Char := Char.ofNat 34

/-- The backslash character. -/
def bsl : Char := Char.ofNat 92

/-- The backtick character. -/
def btick : Char := Char.ofNat 96

/-- The dollar character. -/
def dollarc : Char := Char.ofNat 36

/-- Python `str.replace` for a single-character pattern: every occurrence of
`pat` becomes `rep`. -/
def replaceChar (pat : Char) (rep : List Char) : List Char → List Char
  | [] => []
  | c :: rest =>
    if c = pat then rep ++ replaceChar pat rep rest
    else c :: replaceChar pat rep rest

/-- Escaping of `run_python`: `code.replace("'", "'\\''")` — each single quote
becomes quote, backslash, quote, quote. -/
def escapePy (code : List Char) : List Char :=
  replaceChar sq [sq, bsl, sq, sq] code

/-- Escaping of `run_javascript`:
`code.replace("\\", "\\\\").replace("'", "\\'")` — backslashes doubled first,
then each single quote prefixed with a backslash (the second replace finds no
pattern characters produced by the first, so the chain acts per character). -/
def escapeJs (code : List Char) : List Char :=
  replaceChar sq [bsl, sq] (replaceChar bsl [bsl, bsl] code)

/-- Escaping of `run_bash`:
`script.replace("\\", "\\\\").replace('"', '\\"').replace("$", "\\$")`. -/
def escapeBash (code : List Char) : List Char :=
  replaceChar dollarc [bsl, dollarc]
    (replaceChar dq [bsl, dq] (replaceChar bsl [bsl, bsl] code))

/-- The argument text `run_python` embeds after `python3 -c `. -/
def pyArg (code : List Char) : List Char := sq :: (escapePy code ++ [sq])

/-- The argument text `run_javascript` embeds after `node -e `. -/
def jsArg (code : List Char) : List Char := sq :: (escapeJs code ++ [sq])

/-- The argument text `run_bash` embeds after `sh -c `. -/
def bashArg (code : List Char) : List Char := dq :: (escapeBash code ++ [dq])

/-- Quoting state of the POSIX shell word scanner. -/
inductive QMode where
  | out
  | insingle
  | indouble
deriving Repr, DecidableEq

/-- POSIX shell unquoting of one word.  Returns the literal bytes the shell
passes to the command, or `none` when the text is not one literal word: an
unterminated quote, a trailing lone backslash, an unquoted whitespace (word
split), or an unquoted or double-quoted `$` or backtick (which the shell would
expand rather than pass through).  Outside quotes a backslash escapes the next
character; inside single quotes every character is literal until the closing
quote; inside double quotes a backslash escapes backslash, double quote, dollar
and backtick, removes a following newline, and is otherwise kept literally. -/
def shUnquote : QMode → List Char → Option (List Char)
  | .out, [] => some []
  | .out, c :: rest =>
    if c = sq then shUnquote .insingle rest
    else if c = dq then shUnquote .indouble rest
    else if c = bsl then
      match rest with
      | [] => none
      | d :: rest2 => (shUnquote .out rest2).map (fun t => d :: t)
    else if c = dollarc ∨ c = btick then none
    else if c = ' ' ∨ c = Char.ofNat 9 ∨ c = Char.ofNat 10 then none
    else (shUnquote .out rest).map (fun t => c :: t)
  | .insingle, [] => none
  | .insingle, c :: rest =>
    if c = sq then shUnquote .out rest
    else (shUnquote .insingle rest).map (fun t => c :: t)
  | .indouble, [] => none
  | .indouble, c :: rest =>
    if c = dq then shUnquote .out rest
    else if c = bsl then
      match rest with
      | [] => none
      | d :: rest2 =>
        if d = bsl ∨ d = dq ∨ d = dollarc ∨ d = btick then
          (shUnquote .indouble rest2).map (fun t => d :: t)
        else if d = Char.ofNat 10 then shUnquote .indouble rest2
        else (shUnquote .indouble rest2).map (fun t => c :: d :: t)
    else if c = dollarc ∨ c = btick then none
    else (shUnquote .indouble rest).map (fun t => c :: t)

/-- Lowercase hexadecimal alphabet membership (digits 0-9 and letters a-f). -/
def isHexChar (c : Char) : Bool :=
  (decide (48 ≤ c.toNat) && decide (c.toNat ≤ 57)) ||
    (decide (97 ≤ c.toNat) && decide (c.toNat ≤ 102))

/-- A JavaScript payload containing a single quote (the text it, quote, s). -/
def aposInput : List Char := ['i', 't', sq, 's']

/-- A bash payload containing a command substitution backtick pair. -/
def btickInput : List Char := ['e', 'c', 'h', 'o', ' ', btick, 'i', 'd', btick]

/-! ## client.py data model -/

/-- The `ExecutionMode` enum of client.py. -/
inductive ExecutionMode where
  | ephemeral
  | cached
  | checkpointed
  | branched
  | persistent
deriving Repr, DecidableEq

/-- The `ExecutionResponse` dataclass of client.py. -/
structure ExecutionResponse where
  request_id : String
  exit_code : Int
  stdout : List Nat
  stderr : List Nat
  duration : ℚ
  snapshot : Option String := none
  cached : Bool := false
  memory_used : Option Nat := none
deriving Repr, DecidableEq

/-- The `Snapshot` dataclass of client.py (lines 63-73): `id`, `parent_id`,
`mode`, `created_at`, `size`, `memory_pages` and `checksum` are required fields
without defaults; only `metadata` defaults (to `None`).  The free-form metadata
dict is modelled as an association list. -/
structure Snapshot where
  id : String
  parent_id : Option String
  mode : ExecutionMode
  created_at : ℚ
  size : Nat
  memory_pages : Option Nat
  checksum : String
  metadata : Option (List (String × String)) := none
deriving Repr, DecidableEq

/-- The `Branch` dataclass of client.py. -/
structure Branch where
  id : String
  snapshot_id : String
  parent_branch : Option String
  created_at : ℚ
  divergence_point : String
  metadata : Option (List (String × String)) := none
deriving Repr, DecidableEq

/-- Python truthiness of an `Optional[str]`: `None` and the empty string are
falsy. -/
def truthyOptStr : Option String → Bool
  | none => false
  | some s => !s.isEmpty

/-- Keyword-argument construction of the `Snapshot` dataclass, as in
`Snapshot(id=b.snapshot_id, **{})`: a parameter left `none` here stands for an
argument that was not passed; any required field not supplied makes
`__init__` raise a `TypeError`. -/
def snapshotKwargs (id0 : Option String) (parentArg : Option (Option String))
    (modeArg : Option ExecutionMode) (createdArg : Option ℚ) (sizeArg : Option Nat)
    (memArg : Option (Option Nat)) (checksumArg : Option String)
    (metadataArg : Option (Option (List (String × String)))) :
    Except PyError Snapshot :=
  match id0, parentArg, modeArg, createdArg, sizeArg, memArg, checksumArg with
  | some i, some p, some m, some c, some sz, some mp, some ck =>
      .ok ⟨i, p, m, c, sz, mp, ck, metadataArg.getD none⟩
  | _, _, _, _, _, _, _ =>
      .error (.typeError
        "Snapshot.__init__ missing required positional arguments: parent_id, mode, created_at, size, memory_pages, checksum")

/-! ## FluentExecutor (client.py lines 532-583)

`from_env`, `exec` and `branch` queue closures; `run` awaits them strictly in
enqueue order.  Each closure mutates `self.current_snapshot` and returns `None`
(its body has no return statement), so `run`'s `last_result` is always `None`
when the loop completes.  `branch` raises `PlatformError('No snapshot to branch
from')` when `self.current_snapshot` is falsy, before any network call. -/

/-- One queued operation of the fluent chain. -/
inductive FluentStep where
  | fromEnvStep (env : String)
  | execStep (code : String)
  | branchStep
deriving Repr, DecidableEq

/-- A client call issued while running the chain: `execute_cached(code, env)`,
`execute_checkpointed(code, env, checkpoint)` (env defaulting to
alpine:latest), or `create_branch(snapshot_id)`. -/
inductive ClientCall where
  | execCached (code env : String)
  | execCheckpointed (code env : String) (checkpoint : Option String)
  | createBranch (snapshot_id : String)
deriving Repr, DecidableEq

/-- A transport reply to one client call. -/
inductive CallReply where
  | execReply (r : ExecutionResponse)
  | branchReply (b : Branch)
  | errReply (e : PlatformError)
deriving Repr, DecidableEq

/-- Modelling artifact: the transport oracle answered an execute call with a
branch payload or vice versa; never reached under well-shaped oracles. -/
def protocolError : PlatformError :=
  ⟨"transport reply of unexpected shape", none, none⟩

/-- Running the queued steps in order.  `k` numbers the network calls, `cur` is
`self.current_snapshot`, `last` is the running `last_result` of `run` (set to
the `None` each closure returns).  The first component collects the client
calls actually issued, in order. -/
def runSteps (oracle : Nat → CallReply) : (k : Nat) → (cur : Option String) →
    (last : Option ExecutionResponse) → List FluentStep →
    List ClientCall × Except PlatformError (Option String × Option ExecutionResponse)
  | _, cur, last, [] => ([], .ok (cur, last))
  | k, _, _, .fromEnvStep env :: rest =>
    match oracle k with
    | .execReply r =>
      let t := runSteps oracle (k + 1) r.snapshot none rest
      (.execCached "" env :: t.1, t.2)
    | .errReply e => ([.execCached "" env], .error e)
    | .branchReply _ => ([.execCached "" env], .error protocolError)
  | k, cur, _, .execStep code :: rest =>
    match oracle k with
    | .execReply r =>
      let t := runSteps oracle (k + 1) r.snapshot none rest
      (.execCheckpointed code "alpine:latest" cur :: t.1, t.2)
    | .errReply e => ([.execCheckpointed code "alpine:latest" cur], .error e)
    | .branchReply _ => ([.execCheckpointed code "alpine:latest" cur], .error protocolError)
  | k, cur, _, .branchStep :: rest =>
    match cur with
    | none => ([], .error ⟨"No snapshot to branch from", none, none⟩)
    | some snapId =>
      if snapId.isEmpty then ([], .error ⟨"No snapshot to branch from", none, none⟩)
      else
        match oracle k with
        | .branchReply b =>
          let t := runSteps oracle (k + 1) (some b.snapshot_id) none rest
          (.createBranch snapId :: t.1, t.2)
        | .errReply e => ([.createBranch snapId], .error e)
        | .execReply _ => ([.createBranch snapId], .error protocolError)

/-- `FluentExecutor.run` on a fresh chain: `current_snapshot = None`,
`last_result = None`. -/
def runFluent (oracle : Nat → CallReply) (steps : List FluentStep) :
    List ClientCall × Except PlatformError (Option String × Option ExecutionResponse) :=
  runSteps oracle 0 none none steps

/-- An execution response whose platform payload carries only a snapshot
reference (the chain steps read nothing else). -/
def snapResp (s : String) : ExecutionResponse :=
  ⟨"", 0, [], [], 0, some s, false, none⟩

/-! ## parallel_map (client.py lines 365-394)

With a truthy `base_snapshot` the method first creates one branch per item,
then builds `snapshots = [Snapshot(id=b.snapshot_id, **{}) for b in branches]`
— a construction that raises `TypeError` on the first element because the six
other required dataclass fields are never supplied, before the `try` block is
entered, so neither the worker function nor any cleanup runs.  Otherwise it
creates one snapshot per item, runs the workers under `try`, and in `finally`
issues `delete_snapshot(s.id)` for every created snapshot with
`return_exceptions=True` (the gathered outcomes are discarded). -/

/-- Network / worker calls `parallel_map` performs, in order. -/
inductive PmCall where
  | createBranchCall (snapshot_id : String)
  | createSnapshotCall
  | fnCall (idx : Nat)
  | deleteSnapshotCall (id : String)
deriving Repr, DecidableEq

/-- Left-first sequencing of fallible computations: the first raising element
propagates (a Python list comprehension / `asyncio.gather` without
`return_exceptions`, with completion order modelled as list order). -/
def exceptSequence {ε α : Type _} : List (Except ε α) → Except ε (List α)
  | [] => .ok []
  | .error e :: _ => .error e
  | .ok x :: rest => (exceptSequence rest).map (fun l => x :: l)

/-- Whether a trace entry is a cleanup call. -/
def PmCall.isDelete : PmCall → Bool
  | .deleteSnapshotCall _ => true
  | _ => false

/-- Whether a trace entry is a worker invocation. -/
def PmCall.isFn : PmCall → Bool
  | .fnCall _ => true
  | _ => false

/-- The `try`/`finally` body of `parallel_map`: invoke the worker on every
item (`asyncio.gather`, completion order modelled as list order), then issue
one `delete_snapshot(s.id)` per created snapshot; the cleanup outcomes are
gathered with `return_exceptions=True` and discarded, so they never influence
the primary result. -/
def pmRunBody {β : Type _} (n : Nat) (fnResults : Nat → Except String β)
    (deleteReplies : Nat → Except String Unit)
    (crCalls : List PmCall) (snapshots : List Snapshot) :
    List PmCall × Except PyError (List β) :=
  let fnCalls := (List.range n).map PmCall.fnCall
  let delCalls := snapshots.map (fun s => PmCall.deleteSnapshotCall s.id)
  let cleanupOutcomes := (List.range n).map deleteReplies
  let res : Except PyError (List β) :=
    match exceptSequence ((List.range n).map fnResults) with
    | .ok l => .ok l
    | .error msg => .error (.exc msg)
  (crCalls ++ fnCalls ++ delCalls, (fun _ => res) cleanupOutcomes)

/-- `FaaSPlatformClient.parallel_map`.  `branchReplies i` is the branch the
platform returns for the i-th `create_branch` call, `snapReplies i` the
snapshot for the i-th `create_snapshot` call (creation calls are modelled as
succeeding), `fnResults i` the outcome of the worker on the i-th item and
`deleteReplies i` the outcome of the i-th `delete_snapshot` call — the latter
are never consulted, mirroring `return_exceptions=True` with the gathered list
unused. -/
def parallelMap {α β : Type _} (items : List α) (base_snapshot : Option String)
    (branchReplies : Nat → Branch) (snapReplies : Nat → Snapshot)
    (fnResults : Nat → Except String β) (deleteReplies : Nat → Except String Unit) :
    List PmCall × Except PyError (List β) :=
  if truthyOptStr base_snapshot then
    match exceptSequence (((List.range items.length).map branchReplies).map (fun b =>
        snapshotKwargs (some b.snapshot_id) none none none none none none none)) with
    | .error e =>
      ((List.range items.length).map
        (fun _ => PmCall.createBranchCall (base_snapshot.getD "")), .error e)
    | .ok snapshots =>
      pmRunBody items.length fnResults deleteReplies
        ((List.range items.length).map
          (fun _ => PmCall.createBranchCall (base_snapshot.getD ""))) snapshots
  else
    pmRunBody items.length fnResults deleteReplies
      ((List.range items.length).map (fun _ => PmCall.createSnapshotCall))
      ((List.range items.length).map snapReplies)

/-! ## Fork coordinator with selection strategies -/

/-- Modelled from the spec: the `ForkStrategy` enum of the branch-set variant of
`fork_execution` (imported from `faas_sdk` by the test-suite and the examples
but absent from the `src` copy of sdks/python/faas_sdk.py). -/
inductive ForkStrategy where
  | parallelStrat
  | fastest
deriving Repr, DecidableEq

/-- Modelled from the spec: one branch's reported result inside a fork
(`branch_id`, reported duration in milliseconds, output). -/
structure ForkBranchResult where
  branch_id : String
  duration_ms : Nat
  stdout : Option String := none
deriving Repr, DecidableEq

/-- Modelled from the spec (section 4.4): under the `fastest` strategy the
coordinator selects the branch with the minimum reported duration, ties broken
by declaration order — that is, the first declared branch whose duration is
less than or equal to every branch's duration. -/
def fastestWinner (results : List ForkBranchResult) : Option ForkBranchResult :=
  results.find? (fun r => results.all (fun r2 => r.duration_ms ≤ r2.duration_ms))

/-- Modelled from the spec: winner selection by strategy; under `parallel` the
selection is platform-driven, with no client-side winner implied. -/
def forkSelect : ForkStrategy → List ForkBranchResult → Option ForkBranchResult
  | .fastest, results => fastestWinner results
  | .parallelStrat, _ => none

end FaasSDK

namespace FaasSDK

/-! ### Helper lemmas about the retry loops -/

theorem sleepsQ_cons (a k : Nat) :
    (List.range (k + 1)).map (fun i => (1 / 10 : ℚ) * 2 ^ (a + i)) =
      (1 / 10 : ℚ) * 2 ^ a :: (List.range k).map (fun i => (1 / 10 : ℚ) * 2 ^ (a + 1 + i)) := by
  rw [List.range_succ_eq_map]
  simp only [List.map_cons, List.map_map, Nat.add_zero]
  refine congrArg _ (List.map_congr_left ?_)
  intro i _
  simp only [Function.comp_apply]
  congr 2
  omega

theorem executeAttempts_success_aux (outcomes : Nat → AttemptOutcome) (rt : Runtime)
    (maxR : Nat) :
    ∀ (k a : Nat) (m : ClientMetrics) (le : Option String) (remaining : Nat),
    1 ≤ a → k < remaining →
    (∀ i, i < k → isFailedAttempt (outcomes (a + i)) = true) →
    ∀ body elapsed data, outcomes (a + k) = .httpResp 200 body elapsed data →
    (executeAttempts outcomes rt maxR m le a remaining).sleeps =
        (List.range (k + 1)).map (fun i => (1 / 10 : ℚ) * 2 ^ (a + i)) ∧
    (executeAttempts outcomes rt maxR m le a remaining).calls = k + 1 ∧
    (executeAttempts outcomes rt maxR m le a remaining).result =
        .ok (mapExecResult rt elapsed data (decide (elapsed < 10))) := by
  intro k
  induction k with
  | zero =>
    intro a m le remaining ha hk hfail body elapsed data hsucc
    obtain ⟨r, rfl⟩ : ∃ r, remaining = r + 1 := ⟨remaining - 1, by omega⟩
    rw [show a + 0 = a from rfl] at hsucc
    unfold executeAttempts
    rw [hsucc]
    simp only []
    rw [if_neg (show ¬ a = 0 by omega), if_neg (show ¬ (200 ≠ 200) by simp)]
    simp [List.range_succ]
  | succ k ih =>
    intro a m le remaining ha hk hfail body elapsed data hsucc
    obtain ⟨r, rfl⟩ : ∃ r, remaining = r + 1 := ⟨remaining - 1, by omega⟩
    have h0 : isFailedAttempt (outcomes a) = true := by simpa using hfail 0 (by omega)
    have hfail' : ∀ i, i < k → isFailedAttempt (outcomes (a + 1 + i)) = true := by
      intro i hi
      have h := hfail (i + 1) (by omega)
      have e : a + (i + 1) = a + 1 + i := by omega
      rwa [e] at h
    have hsucc' : outcomes (a + 1 + k) = .httpResp 200 body elapsed data := by
      have e : a + 1 + k = a + (k + 1) := by omega
      rw [e]; exact hsucc
    have ihr := fun (m2 : ClientMetrics) (le2 : Option String) =>
      ih (a + 1) m2 le2 r (by omega) (by omega) hfail' body elapsed data hsucc'
    cases hc : outcomes a with
    | raised msg =>
      unfold executeAttempts
      rw [hc]
      simp only []
      rw [if_neg (show ¬ a = 0 by omega)]
      refine ⟨?_, ?_, ?_⟩
      · show (1 / 10 : ℚ) * 2 ^ a :: _ = _
        rw [(ihr _ _).1, sleepsQ_cons a (k + 1), sleepsQ_cons (a + 1) k]
        simp
      · show _ + 1 = _
        rw [(ihr _ _).2.1]
      · exact (ihr _ _).2.2
    | httpResp s body0 elapsed0 data0 =>
      have hs : s ≠ 200 := by
        rw [hc] at h0
        simpa [isFailedAttempt] using h0
      unfold executeAttempts
      rw [hc]
      simp only []
      rw [if_neg (show ¬ a = 0 by omega), if_pos hs]
      refine ⟨?_, ?_, ?_⟩
      · show (1 / 10 : ℚ) * 2 ^ a :: _ = _
        rw [(ihr _ _).1, sleepsQ_cons a (k + 1), sleepsQ_cons (a + 1) k]
        simp
      · show _ + 1 = _
        rw [(ihr _ _).2.1]
      · exact (ihr _ _).2.2

theorem pyExecuteFrom_success (outcomes : Nat → AttemptOutcome) (rt : Runtime)
    (maxR : Nat) (m : ClientMetrics) (k : Nat) (hk : k < maxR)
    (hfail : ∀ i, i < k → isFailedAttempt (outcomes i) = true)
    (body : String) (elapsed : Nat) (data : WireData)
    (hsucc : outcomes k = .httpResp 200 body elapsed data) :
    (pyExecuteFrom m outcomes rt maxR).sleeps =
        (List.range k).map (fun i => (1 / 10 : ℚ) * 2 ^ (i + 1)) ∧
    (pyExecuteFrom m outcomes rt maxR).calls = k + 1 ∧
    (pyExecuteFrom m outcomes rt maxR).result =
        .ok (mapExecResult rt elapsed data (decide (elapsed < 10))) := by
  obtain ⟨r, rfl⟩ : ∃ r, maxR = r + 1 := ⟨maxR - 1, by omega⟩
  cases k with
  | zero =>
    unfold pyExecuteFrom executeAttempts
    rw [hsucc]
    simp only []
    rw [if_neg (show ¬ (200 ≠ 200) by simp)]
    simp
  | succ k =>
    have h0 : isFailedAttempt (outcomes 0) = true := hfail 0 (by omega)
    have hfail' : ∀ i, i < k → isFailedAttempt (outcomes (1 + i)) = true := by
      intro i hi
      have h := hfail (i + 1) (by omega)
      rwa [Nat.add_comm i 1] at h
    have hsucc' : outcomes (1 + k) = .httpResp 200 body elapsed data := by
      rwa [Nat.add_comm 1 k]
    have hr : k < r := by omega
    have ihr := fun (m2 : ClientMetrics) (le2 : Option String) =>
      executeAttempts_success_aux outcomes rt (r + 1) k 1 m2 le2 r (by omega) hr
        hfail' body elapsed data hsucc'
    have hrange : (List.range (k + 1)).map (fun i => (1 / 10 : ℚ) * 2 ^ (1 + i)) =
        (List.range (k + 1)).map (fun i => (1 / 10 : ℚ) * 2 ^ (i + 1)) := by
      refine List.map_congr_left ?_
      intro i _
      congr 2
      omega
    cases hc : outcomes 0 with
    | raised msg =>
      unfold pyExecuteFrom executeAttempts
      rw [hc]
      simp only []
      refine ⟨?_, ?_, ?_⟩
      · show [] ++ _ = _
        rw [List.nil_append, (ihr _ _).1, hrange]
      · show _ + 1 = _
        rw [(ihr _ _).2.1]
      · exact (ihr _ _).2.2
    | httpResp s body0 elapsed0 data0 =>
      have hs : s ≠ 200 := by
        rw [hc] at h0
        simpa [isFailedAttempt] using h0
      unfold pyExecuteFrom executeAttempts
      rw [hc]
      simp only []
      rw [if_pos hs]
      refine ⟨?_, ?_, ?_⟩
      · show [] ++ _ = _
        rw [List.nil_append, (ihr _ _).1, hrange]
      · show _ + 1 = _
        rw [(ihr _ _).2.1]
      · exact (ihr _ _).2.2

theorem executeAttempts_exhaust_aux (outcomes : Nat → AttemptOutcome) (rt : Runtime)
    (maxR : Nat) :
    ∀ (remaining a : Nat) (m : ClientMetrics) (le : Option String), 1 ≤ remaining →
    (∀ i, i < remaining → isFailedAttempt (outcomes (a + i)) = true) →
    (executeAttempts outcomes rt maxR m le a remaining).result =
        .error ("Execution failed after " ++ toString maxR ++ " retries: "
          ++ attemptErrorText (outcomes (a + (remaining - 1)))) ∧
    (executeAttempts outcomes rt maxR m le a remaining).calls = remaining := by
  intro remaining
  induction remaining with
  | zero => intro a m le h; omega
  | succ r ih =>
    intro a m le _ hfail
    have h0 : isFailedAttempt (outcomes a) = true := by simpa using hfail 0 (by omega)
    cases hr : r with
    | zero =>
      subst hr
      cases hc : outcomes a with
      | raised msg =>
        unfold executeAttempts
        rw [hc]
        simp only []
        unfold executeAttempts
        simp [optionStr, hc, attemptErrorText]
      | httpResp s body0 elapsed0 data0 =>
        have hs : s ≠ 200 := by
          rw [hc] at h0
          simpa [isFailedAttempt] using h0
        unfold executeAttempts
        rw [hc]
        simp only []
        rw [if_pos hs]
        unfold executeAttempts
        simp [optionStr, hc, attemptErrorText]
    | succ r' =>
      subst hr
      have hfail' : ∀ i, i < r' + 1 → isFailedAttempt (outcomes (a + 1 + i)) = true := by
        intro i hi
        have h := hfail (i + 1) (by omega)
        have e : a + (i + 1) = a + 1 + i := by omega
        rwa [e] at h
      have ihr := fun (m2 : ClientMetrics) (le2 : Option String) =>
        ih (a + 1) m2 le2 (by omega) hfail'
      have eidx : a + 1 + (r' + 1 - 1) = a + (r' + 1 + 1 - 1) := by omega
      cases hc : outcomes a with
      | raised msg =>
        unfold executeAttempts
        rw [hc]
        simp only []
        refine ⟨?_, ?_⟩
        · rw [(ihr _ _).1, eidx]
        · show _ + 1 = _
          rw [(ihr _ _).2]
      | httpResp s body0 elapsed0 data0 =>
        have hs : s ≠ 200 := by
          rw [hc] at h0
          simpa [isFailedAttempt] using h0
        unfold executeAttempts
        rw [hc]
        simp only []
        rw [if_pos hs]
        refine ⟨?_, ?_⟩
        · rw [(ihr _ _).1, eidx]
        · show _ + 1 = _
          rw [(ihr _ _).2]

theorem pyExecuteFrom_exhaust (outcomes : Nat → AttemptOutcome) (rt : Runtime)
    (maxR : Nat) (m : ClientMetrics) (h1 : 1 ≤ maxR)
    (hfail : ∀ i, i < maxR → isFailedAttempt (outcomes i) = true) :
    (pyExecuteFrom m outcomes rt maxR).result =
        .error ("Execution failed after " ++ toString maxR ++ " retries: "
          ++ attemptErrorText (outcomes (maxR - 1))) ∧
    (pyExecuteFrom m outcomes rt maxR).calls = maxR := by
  have h := executeAttempts_exhaust_aux outcomes rt maxR maxR 0 m none h1
    (by simpa using hfail)
  simpa using h

/-! ### Helper lemmas about the `_request` loop -/

theorem sleeps_cons (a k : Nat) :
    (List.range (k + 1)).map (fun i => 2 ^ (a + i)) =
      2 ^ a :: (List.range k).map (fun i => 2 ^ (a + 1 + i)) := by
  rw [List.range_succ_eq_map]
  simp only [List.map_cons, List.map_map, Nat.add_zero]
  refine congrArg _ (List.map_congr_left ?_)
  intro i _
  simp only [Function.comp_apply]
  congr 1
  omega

theorem request_4xx_immediate (outcomes : Nat → HttpOutcome) (timeoutS maxRetries s : Nat)
    (body : String) (h1 : 1 ≤ maxRetries) (h2 : outcomes 0 = .http s body)
    (h4 : 400 ≤ s) (h5 : s < 500) :
    pyRequest outcomes timeoutS maxRetries = ⟨1, [], .error (clientError s body)⟩ := by
  obtain ⟨r, rfl⟩ : ∃ r, maxRetries = r + 1 := ⟨maxRetries - 1, by omega⟩
  unfold pyRequest requestAttempts
  rw [h2]
  simp only []
  rw [if_neg (by omega), if_pos h4]

theorem requestAttempts_success (outcomes : Nat → HttpOutcome) (timeoutS : Nat) :
    ∀ (k a remaining : Nat), k < remaining →
    (∀ i, i < k → isRetryable (outcomes (a + i)) = true) →
    ∀ s body, outcomes (a + k) = .http s body → s < 400 →
    requestAttempts outcomes timeoutS a remaining =
      ⟨k + 1, (List.range k).map (fun i => 2 ^ (a + i)), .ok body⟩ := by
  intro k
  induction k with
  | zero =>
    intro a remaining hk hfail s body hsucc hs
    obtain ⟨r, rfl⟩ : ∃ r, remaining = r + 1 := ⟨remaining - 1, by omega⟩
    rw [show a + 0 = a from rfl] at hsucc
    unfold requestAttempts
    rw [hsucc]
    simp only []
    rw [if_neg (by omega), if_neg (by omega)]
    simp
  | succ k ih =>
    intro a remaining hk hfail s body hsucc hs
    obtain ⟨r, rfl⟩ : ∃ r, remaining = r + 1 := ⟨remaining - 1, by omega⟩
    have hr : k < r := by omega
    have h0 : isRetryable (outcomes a) = true := by simpa using hfail 0 (by omega)
    have hfail' : ∀ i, i < k → isRetryable (outcomes (a + 1 + i)) = true := by
      intro i hi
      have h := hfail (i + 1) (by omega)
      have e : a + (i + 1) = a + 1 + i := by omega
      rwa [e] at h
    have hsucc' : outcomes (a + 1 + k) = .http s body := by
      have e : a + 1 + k = a + (k + 1) := by omega
      rw [e]; exact hsucc
    have ihr := ih (a + 1) r hr hfail' s body hsucc' hs
    cases hc : outcomes a with
    | http s0 b0 =>
      have h500 : 500 ≤ s0 := by
        rw [hc] at h0; simpa [isRetryable] using h0
      unfold requestAttempts
      rw [hc]
      simp only []
      rw [if_pos h500, if_pos (show r ≠ 0 by omega), ihr, sleeps_cons]
    | timedOut =>
      rw [hc] at h0; simp [isRetryable] at h0
    | netErr m =>
      unfold requestAttempts
      rw [hc]
      simp only []
      rw [if_pos (show r ≠ 0 by omega), ihr, sleeps_cons]

theorem requestAttempts_exhaust (outcomes : Nat → HttpOutcome) (timeoutS : Nat) :
    ∀ (remaining a : Nat), 1 ≤ remaining →
    (∀ i, i < remaining → isRetryable (outcomes (a + i)) = true) →
    requestAttempts outcomes timeoutS a remaining =
      ⟨remaining, (List.range (remaining - 1)).map (fun i => 2 ^ (a + i)),
       .error (lastAttemptError timeoutS (outcomes (a + (remaining - 1))))⟩ := by
  intro remaining
  induction remaining with
  | zero => intro a h; omega
  | succ r ih =>
    intro a _ hfail
    have h0 : isRetryable (outcomes a) = true := by simpa using hfail 0 (by omega)
    cases hr : r with
    | zero =>
      subst hr
      cases hc : outcomes a with
      | http s0 b0 =>
        have h500 : 500 ≤ s0 := by rw [hc] at h0; simpa [isRetryable] using h0
        unfold requestAttempts
        rw [hc]
        simp only []
        rw [if_pos h500, if_neg (by omega)]
        simp [hc]
      | timedOut => rw [hc] at h0; simp [isRetryable] at h0
      | netErr m =>
        unfold requestAttempts
        rw [hc]
        simp only []
        rw [if_neg (by omega)]
        simp [hc]
    | succ r' =>
      subst hr
      have hfail' : ∀ i, i < r' + 1 → isRetryable (outcomes (a + 1 + i)) = true := by
        intro i hi
        have h := hfail (i + 1) (by omega)
        have e : a + (i + 1) = a + 1 + i := by omega
        rwa [e] at h
      have ihr := ih (a + 1) (by omega) hfail'
      cases hc : outcomes a with
      | http s0 b0 =>
        have h500 : 500 ≤ s0 := by rw [hc] at h0; simpa [isRetryable] using h0
        unfold requestAttempts
        rw [hc]
        simp only []
        rw [if_pos h500, if_pos (show r' + 1 ≠ 0 by omega), ihr]
        simp only [Nat.add_sub_cancel, ReqTrace.mk.injEq, true_and]
        constructor
        · rw [sleeps_cons]
        · have e : a + 1 + r' = a + (r' + 1) := by omega
          rw [e]
      | timedOut => rw [hc] at h0; simp [isRetryable] at h0
      | netErr m =>
        unfold requestAttempts
        rw [hc]
        simp only []
        rw [if_pos (show r' + 1 ≠ 0 by omega), ihr]
        simp only [Nat.add_sub_cancel, ReqTrace.mk.injEq, true_and]
        constructor
        · rw [sleeps_cons]
        · have e : a + 1 + r' = a + (r' + 1) := by omega
          rw [e]

/-! ### Digest shape lemmas -/

theorem md5Bytes_length (msg : List Nat) : (md5Bytes msg).length = 16 := by
  unfold md5Bytes
  simp [le4]

theorem hexFlatten_length (l : List Nat) :
    ((l.map byteHexChars).flatten).length = 2 * l.length := by
  induction l with
  | nil => simp
  | cons b rest ih =>
    simp only [List.map_cons, List.flatten_cons, List.length_append, List.length_cons, ih,
      byteHexChars, List.length_nil]
    omega

theorem md5Hex_length (s : String) : (md5Hex s).length = 32 := by
  unfold md5Hex
  show ((md5Bytes (strBytes s)).map byteHexChars).flatten.length = 32
  rw [hexFlatten_length, md5Bytes_length]

theorem hexDigit_isHex (k : Nat) (h : k < 16) : isHexChar (hexDigit k) = true := by
  interval_cases k <;> decide

theorem byteHexChars_hex (b : Nat) : ∀ c ∈ byteHexChars b, isHexChar c = true := by
  intro c hc
  simp only [byteHexChars, List.mem_cons, List.not_mem_nil, or_false] at hc
  rcases hc with h | h <;> subst h
  · exact hexDigit_isHex _ (Nat.mod_lt _ (by norm_num))
  · exact hexDigit_isHex _ (Nat.mod_lt _ (by norm_num))

theorem md5Hex_all_hex (s : String) : (md5Hex s).data.all isHexChar = true := by
  unfold md5Hex
  rw [List.all_eq_true]
  intro c hc
  rw [show (String.mk ((md5Bytes (strBytes s)).map byteHexChars).flatten).data =
      ((md5Bytes (strBytes s)).map byteHexChars).flatten from rfl] at hc
  rw [List.mem_flatten] at hc
  obtain ⟨l2, hl2, hcl⟩ := hc
  rw [List.mem_map] at hl2
  obtain ⟨b, _, rfl⟩ := hl2
  exact byteHexChars_hex b c hcl

/-! ### Claim theorems -/

/-- C1 (amended): a 4xx response is terminal only for
`FaaSPlatformClient._request` (sdk/python/faas_sdk/client.py), which fails on
the first attempt with the response status and body captured as error detail
and exactly one network call made; `FaaSClient.execute`
(sdks/python/faas_sdk.py) instead retries any non-200 response — including
4xx — and only fails after `max_retries` attempts, with a retry-exhausted
error carrying the last observed status and body. -/
theorem c1_4xx_handling :
    (∀ (outcomes : Nat → HttpOutcome) (timeoutS maxRetries s : Nat) (body : String),
      1 ≤ maxRetries → outcomes 0 = .http s body → 400 ≤ s → s < 500 →
      pyRequest outcomes timeoutS maxRetries = ⟨1, [], .error (clientError s body)⟩) ∧
    (∀ (outcomes : Nat → AttemptOutcome) (rt : Runtime) (maxRetries : Nat)
      (m : ClientMetrics), 1 ≤ maxRetries →
      (∀ i, i < maxRetries →
        ∃ s body e d, outcomes i = .httpResp s body e d ∧ s ≠ 200) →
      (pyExecuteFrom m outcomes rt maxRetries).result =
        .error ("Execution failed after " ++ toString maxRetries ++ " retries: "
          ++ attemptErrorText (outcomes (maxRetries - 1))) ∧
      (pyExecuteFrom m outcomes rt maxRetries).calls = maxRetries) := by
  constructor
  · exact request_4xx_immediate
  · intro outcomes rt maxR m h1 hall
    have hfail : ∀ i, i < maxR → isFailedAttempt (outcomes i) = true := by
      intro i hi
      obtain ⟨s, body, e, d, heq, hs⟩ := hall i hi
      rw [heq]
      simp [isFailedAttempt, hs]
    exact pyExecuteFrom_exhaust outcomes rt maxR m h1 hfail

/-- C1 witness: with `max_retries = 3`, a transport answering 404 on the first
attempt makes `_request` fail at once with one call, while `FaaSClient.execute`
against a transport answering 404 on every attempt performs three calls and a
retry-exhausted failure. -/
theorem c1_witness :
    pyRequest (fun _ => .http 404 "missing") 30 3 =
      ⟨1, [], .error (clientError 404 "missing")⟩ ∧
    ((pyExecuteFrom {} (fun _ => .httpResp 404 "nf" 20 {}) .auto 3).result =
        .error ("Execution failed after " ++ toString 3 ++ " retries: "
          ++ attemptErrorText (.httpResp 404 "nf" 20 {})) ∧
      (pyExecuteFrom {} (fun _ => .httpResp 404 "nf" 20 {}) .auto 3).calls = 3) :=
  ⟨c1_4xx_handling.1 (fun _ => .http 404 "missing") 30 3 404 "missing"
      (by norm_num) rfl (by norm_num) (by norm_num),
   c1_4xx_handling.2 (fun _ => .httpResp 404 "nf" 20 {}) .auto 3 {} (by norm_num)
      (fun i _ => ⟨404, "nf", 20, {}, rfl, by norm_num⟩)⟩

/-- C1 counterexample: against a transport answering HTTP 404 — a 4xx — on
every attempt, `FaaSClient.execute` (sdks/python/faas_sdk.py) with
`max_retries = 3` performs three network calls, not exactly one, and fails
with a retry-exhausted error mentioning the last status and body instead of
failing immediately on the first attempt. -/
theorem c1_counterexample :
    (pyExecute (fun _ => .httpResp 404 "not found" 20 {}) .auto 3).calls = 3 ∧
    (pyExecute (fun _ => .httpResp 404 "not found" 20 {}) .auto 3).result =
      .error "Execution failed after 3 retries: HTTP 404: not found" :=
  ⟨rfl, rfl⟩

/-- C2: retry with exponential backoff in both clients.  For
`FaaSPlatformClient._request`: when the first `k < max_retries` outcomes are
retryable (5xx or transport error) and attempt `k` yields an ok response, the
call returns that attempt's decoded body after `k + 1` calls with delays
`2 ^ 0, …, 2 ^ (k-1)` seconds; when all `max_retries` outcomes are retryable
the call fails with the `ServerError`/`NetworkError`-style `PlatformError`
derived from the last outcome.  For `FaaSClient.execute`: when the first
`k < max_retries` attempts fail and attempt `k` returns HTTP 200, the call
returns the mapped result of the successful attempt after `k + 1` calls with
delays `0.1 * 2 ^ 1, …, 0.1 * 2 ^ k` seconds; when all attempts fail it raises
the retry-exhausted error carrying the last observed error text. -/
theorem c2_retry_backoff :
    (∀ (outcomes : Nat → HttpOutcome) (timeoutS k maxRetries s : Nat) (p : String),
      k < maxRetries → (∀ i, i < k → isRetryable (outcomes i) = true) →
      outcomes k = .http s p → s < 400 →
      pyRequest outcomes timeoutS maxRetries =
        ⟨k + 1, (List.range k).map (fun i => 2 ^ i), .ok p⟩) ∧
    (∀ (outcomes : Nat → HttpOutcome) (timeoutS maxRetries : Nat),
      1 ≤ maxRetries → (∀ i, i < maxRetries → isRetryable (outcomes i) = true) →
      pyRequest outcomes timeoutS maxRetries =
        ⟨maxRetries, (List.range (maxRetries - 1)).map (fun i => 2 ^ i),
         .error (lastAttemptError timeoutS (outcomes (maxRetries - 1)))⟩) ∧
    (∀ (outcomes : Nat → AttemptOutcome) (rt : Runtime) (maxRetries k : Nat)
      (m : ClientMetrics) (body : String) (elapsed : Nat) (data : WireData),
      k < maxRetries → (∀ i, i < k → isFailedAttempt (outcomes i) = true) →
      outcomes k = .httpResp 200 body elapsed data →
      (pyExecuteFrom m outcomes rt maxRetries).result =
        .ok (mapExecResult rt elapsed data (decide (elapsed < 10))) ∧
      (pyExecuteFrom m outcomes rt maxRetries).calls = k + 1 ∧
      (pyExecuteFrom m outcomes rt maxRetries).sleeps =
        (List.range k).map (fun i => (1 / 10 : ℚ) * 2 ^ (i + 1))) ∧
    (∀ (outcomes : Nat → AttemptOutcome) (rt : Runtime) (maxRetries : Nat)
      (m : ClientMetrics), 1 ≤ maxRetries →
      (∀ i, i < maxRetries → isFailedAttempt (outcomes i) = true) →
      (pyExecuteFrom m outcomes rt maxRetries).result =
        .error ("Execution failed after " ++ toString maxRetries ++ " retries: "
          ++ attemptErrorText (outcomes (maxRetries - 1))) ∧
      (pyExecuteFrom m outcomes rt maxRetries).calls = maxRetries) := by
  refine ⟨?_, ?_, ?_, ?_⟩
  · intro outcomes timeoutS k maxR s p hk hfail hsucc hs
    have h := requestAttempts_success outcomes timeoutS k 0 maxR hk
      (by simpa using hfail) s p (by simpa using hsucc) hs
    rw [show pyRequest outcomes timeoutS maxR = requestAttempts outcomes timeoutS 0 maxR
      from rfl, h]
    simp
  · intro outcomes timeoutS maxR h1 hfail
    have h := requestAttempts_exhaust outcomes timeoutS maxR 0 h1 (by simpa using hfail)
    rw [show pyRequest outcomes timeoutS maxR = requestAttempts outcomes timeoutS 0 maxR
      from rfl, h]
    simp
  · intro outcomes rt maxR k m body elapsed data hk hfail hsucc
    have h := pyExecuteFrom_success outcomes rt maxR m k hk hfail body elapsed data hsucc
    exact ⟨h.2.2, h.2.1, h.1⟩
  · intro outcomes rt maxR m h1 hfail
    exact pyExecuteFrom_exhaust outcomes rt maxR m h1 hfail

/-- C2 witness: with `max_retries = 3` and a transport failing once with 503
then succeeding, both clients succeed on the second attempt after one backoff
delay; with a transport failing on all three attempts, both fail with the
retry-exhausted error of the last attempt. -/
theorem c2_witness :
    pyRequest (fun i => if i = 0 then .http 503 "oops" else .http 200 "payload") 30 3 =
      ⟨2, [1], .ok "payload"⟩ ∧
    pyRequest (fun _ => .http 503 "oops") 30 3 =
      ⟨3, [1, 2], .error (lastAttemptError 30 (.http 503 "oops"))⟩ ∧
    ((pyExecuteFrom {} (fun i => if i = 0 then .raised "boom"
        else .httpResp 200 "" 50 {}) .auto 3).result =
        .ok (mapExecResult .auto 50 {} (decide ((50 : Nat) < 10))) ∧
      (pyExecuteFrom {} (fun i => if i = 0 then .raised "boom"
        else .httpResp 200 "" 50 {}) .auto 3).calls = 2 ∧
      (pyExecuteFrom {} (fun i => if i = 0 then .raised "boom"
        else .httpResp 200 "" 50 {}) .auto 3).sleeps =
        (List.range 1).map (fun i => (1 / 10 : ℚ) * 2 ^ (i + 1))) ∧
    ((pyExecuteFrom {} (fun _ => .raised "boom") .auto 3).result =
        .error ("Execution failed after " ++ toString 3 ++ " retries: "
          ++ attemptErrorText (.raised "boom")) ∧
      (pyExecuteFrom {} (fun _ => .raised "boom") .auto 3).calls = 3) := by
  refine ⟨?_, ?_, ?_, ?_⟩
  · have h := c2_retry_backoff.1 (fun i => if i = 0 then .http 503 "oops" else .http 200 "payload")
      30 1 3 200 "payload" (by norm_num) (by decide) rfl (by norm_num)
    simpa using h
  · have h := c2_retry_backoff.2.1 (fun _ => .http 503 "oops") 30 3 (by norm_num) (by decide)
    simpa using h
  · have h := c2_retry_backoff.2.2.1 (fun i => if i = 0 then .raised "boom"
      else .httpResp 200 "" 50 {}) .auto 3 1 {} "" 50 {} (by norm_num) (by decide) rfl
    exact h
  · exact c2_retry_backoff.2.2.2 (fun _ => .raised "boom") .auto 3 {} (by norm_num) (by decide)

/-- C3 (amended): when caching is enabled and no explicit key is supplied, the
derived key for a `(command, image)` pair is a deterministic 32-character
string of lowercase hexadecimal characters; identical pairs always yield the
identical key, but distinctness of keys for distinct pairs only holds up to
the unescaped colon join of `f"{command}:{image}"` — pairs whose joined
encodings coincide, such as `("a:b", "c")` and `("a", "b:c")`, deterministically
collide. -/
theorem c3_cache_key_shape :
    (∀ command image : String, (deriveCacheKey command image).length = 32 ∧
      (deriveCacheKey command image).data.all isHexChar = true) ∧
    deriveCacheKey "a:b" "c" = deriveCacheKey "a" "b:c" := by
  refine ⟨fun command image => ⟨md5Hex_length _, md5Hex_all_hex _⟩, ?_⟩
  show md5Hex ("a:b" ++ ":" ++ "c") = md5Hex ("a" ++ ":" ++ "b:c")
  exact congrArg md5Hex (by decide)

/-- C3 counterexample: the distinct pairs `("a:b", "c")` and `("a", "b:c")`
derive the identical cache key, because both joins produce the byte string
a colon b colon c — refuting that distinct `(command, environment)` pairs
yield distinct keys. -/
theorem c3_collision_counterexample :
    (("a:b", "c") ≠ (("a" : String), ("b:c" : String))) ∧
    deriveCacheKey "a:b" "c" = deriveCacheKey "a" "b:c" := by
  refine ⟨by decide, ?_⟩
  show md5Hex ("a:b" ++ ":" ++ "c") = md5Hex ("a" ++ ":" ++ "b:c")
  exact congrArg md5Hex (by decide)

/-- C4: evaluation of the wrapper escaping against POSIX shell unquoting.
`run_javascript` on a payload containing a single quote produces an argument
the shell cannot read back as one literal word (the backslash-quote escape is
inert inside single quotes, leaving an unterminated quote); `run_bash` on a
payload containing backticks leaves them unescaped inside double quotes, where
the shell performs command substitution instead of passing them through; only
`run_python`'s quote-backslash-quote-quote escape round-trips the payload. -/
theorem c4_wrapper_escaping_eval :
    shUnquote .out (jsArg aposInput) = none ∧
    shUnquote .out (bashArg btickInput) = none ∧
    shUnquote .out (pyArg aposInput) = some aposInput :=
  ⟨by decide, by decide, by decide⟩

/-- C5: a state chain queued as `from_env(env)`, `exec(code)`, `branch()`
executes its steps strictly in enqueue order — the issued calls are the cached
baseline execution, the checkpointed execution against the first snapshot, and
the branch creation against the second snapshot — and ends with
`current_snapshot` equal to the created branch's `snapshot_id`; and any chain
whose first executed step is `branch()` fails with the
`PlatformError('No snapshot to branch from')` before issuing any call. -/
theorem c5_state_chain :
    (∀ (env code s1 s2 : String) (b : Branch), s2 ≠ "" →
      runFluent (fun k => if k = 0 then .execReply (snapResp s1)
          else if k = 1 then .execReply (snapResp s2) else .branchReply b)
        [.fromEnvStep env, .execStep code, .branchStep] =
        ([.execCached "" env, .execCheckpointed code "alpine:latest" (some s1),
          .createBranch s2], .ok (some b.snapshot_id, none))) ∧
    (∀ (oracle : Nat → CallReply) (rest : List FluentStep),
      runFluent oracle (.branchStep :: rest) =
        ([], .error ⟨"No snapshot to branch from", none, none⟩)) := by
  constructor
  · intro env code s1 s2 b hs2
    have he : s2.isEmpty = false := by
      rw [Bool.eq_false_iff]
      intro hcontra
      exact hs2 ((String.isEmpty_iff s2).mp hcontra)
    simp [runFluent, runSteps, snapResp, he]
  · intro oracle rest
    rfl

/-- C5 witness: the chain from env-x, exec cmd, branch against a transport
returning snapshots snap-1 and snap-2 and then a branch rooted at snap-3 ends
with current snapshot snap-3; a chain starting with branch fails with the
no-snapshot error. -/
theorem c5_witness :
    runFluent (fun k => if k = 0 then .execReply (snapResp "snap-1")
        else if k = 1 then .execReply (snapResp "snap-2")
        else .branchReply ⟨"b1", "snap-3", none, 0, "snap-2", none⟩)
      [.fromEnvStep "env-x", .execStep "cmd", .branchStep] =
      ([.execCached "" "env-x", .execCheckpointed "cmd" "alpine:latest" (some "snap-1"),
        .createBranch "snap-2"], .ok (some "snap-3", none)) ∧
    runFluent (fun _ => .errReply ⟨"unused", none, none⟩) [.branchStep] =
      ([], .error ⟨"No snapshot to branch from", none, none⟩) :=
  ⟨c5_state_chain.1 "env-x" "cmd" "snap-1" "snap-2"
      ⟨"b1", "snap-3", none, 0, "snap-2", none⟩ (by decide),
   c5_state_chain.2 (fun _ => .errReply ⟨"unused", none, none⟩) []⟩

theorem runSteps_snd_ok (oracle : Nat → CallReply) :
    ∀ (steps : List FluentStep) (k : Nat) (cur st : Option String)
      (v : Option ExecutionResponse),
    (runSteps oracle k cur none steps).2 = .ok (st, v) → v = none := by
  intro steps
  induction steps with
  | nil =>
    intro k cur st v h
    simp only [runSteps, Prod.mk.injEq, Except.ok.injEq] at h
    exact h.2.symm
  | cons step rest ih =>
    intro k cur st v h
    cases step with
    | fromEnvStep env =>
      cases ho : oracle k with
      | execReply r =>
        unfold runSteps at h
        rw [ho] at h
        simp only [] at h
        exact ih (k + 1) r.snapshot st v h
      | branchReply b =>
        unfold runSteps at h
        rw [ho] at h
        simp at h
      | errReply e =>
        unfold runSteps at h
        rw [ho] at h
        simp at h
    | execStep code =>
      cases ho : oracle k with
      | execReply r =>
        unfold runSteps at h
        rw [ho] at h
        simp only [] at h
        exact ih (k + 1) r.snapshot st v h
      | branchReply b =>
        unfold runSteps at h
        rw [ho] at h
        simp at h
      | errReply e =>
        unfold runSteps at h
        rw [ho] at h
        simp at h
    | branchStep =>
      cases cur with
      | none =>
        unfold runSteps at h
        simp at h
      | some snapId =>
        unfold runSteps at h
        simp only [] at h
        by_cases he : snapId.isEmpty
        · rw [if_pos he] at h
          simp at h
        · rw [if_neg he] at h
          cases ho : oracle k with
          | execReply r =>
            rw [ho] at h
            simp at h
          | branchReply b =>
            rw [ho] at h
            simp only [] at h
            exact ih (k + 1) (some b.snapshot_id) st v h
          | errReply e =>
            rw [ho] at h
            simp at h

/-- C10: whenever `FluentExecutor.run` returns (rather than raising), its
return value is `None` — every queued step closure ends without a return
statement, so the `last_result` the loop threads is always `None`, never an
`ExecutionResponse`, regardless of which steps were queued or how the
transport replied. -/
theorem c10_run_returns_none (oracle : Nat → CallReply) (steps : List FluentStep)
    (st : Option String) (v : Option ExecutionResponse)
    (h : (runFluent oracle steps).2 = .ok (st, v)) : v = none :=
  runSteps_snd_ok oracle steps 0 none st v h

/-- C10 witness: a one-step chain that succeeds returns `None` as its result
value. -/
theorem c10_witness :
    (runFluent (fun _ => .execReply (snapResp "s")) [.fromEnvStep "e"]).2 =
      .ok (some "s", (none : Option ExecutionResponse)) ∧
    (none : Option ExecutionResponse) = none :=
  ⟨rfl, c10_run_returns_none (fun _ => .execReply (snapResp "s")) [.fromEnvStep "e"]
      (some "s") none rfl⟩

/-! ### parallel_map trace lemmas -/

theorem filter_isDelete_map_create (l : List Nat) :
    ((l.map (fun _ => PmCall.createSnapshotCall)).filter PmCall.isDelete) = [] := by
  induction l with
  | nil => rfl
  | cons x xs ih => simp [List.filter_cons, PmCall.isDelete, ih]

theorem filter_isDelete_map_fn (l : List Nat) :
    ((l.map PmCall.fnCall).filter PmCall.isDelete) = [] := by
  induction l with
  | nil => rfl
  | cons x xs ih => simp [List.filter_cons, PmCall.isDelete, ih]

theorem filter_isDelete_map_del (l : List Snapshot) :
    ((l.map (fun s => PmCall.deleteSnapshotCall s.id)).filter PmCall.isDelete) =
      l.map (fun s => PmCall.deleteSnapshotCall s.id) := by
  induction l with
  | nil => rfl
  | cons x xs ih => simp [List.filter_cons, PmCall.isDelete, ih]

theorem filter_isFn_map_createBranch (l : List Nat) (base : String) :
    ((l.map (fun _ => PmCall.createBranchCall base)).filter PmCall.isFn) = [] := by
  induction l with
  | nil => rfl
  | cons x xs ih => simp [List.filter_cons, PmCall.isFn, ih]

theorem filter_isDelete_map_createBranch (l : List Nat) (base : String) :
    ((l.map (fun _ => PmCall.createBranchCall base)).filter PmCall.isDelete) = [] := by
  induction l with
  | nil => rfl
  | cons x xs ih => simp [List.filter_cons, PmCall.isDelete, ih]

/-- C6 (amended): when `base_snapshot` is falsy and the snapshot creation
calls succeed, `parallel_map` issues exactly one `delete_snapshot` call per
created snapshot — one for each of the N items, in order — no matter whether
the worker invocations succeed or raise, and the primary result never depends
on the outcomes of the cleanup calls (they are gathered with
`return_exceptions=True` and discarded).  When `base_snapshot` is truthy and
the item list is non-empty, the call instead raises a `TypeError` from the
`Snapshot(id=..., **{})` construction after creating the branches, performing
no cleanup at all. -/
theorem c6_parallel_map_cleanup :
    (∀ (items : List Nat) (branchReplies : Nat → Branch) (snapReplies : Nat → Snapshot)
      (fnResults : Nat → Except String Nat) (deleteReplies : Nat → Except String Unit),
      ((parallelMap items none branchReplies snapReplies fnResults deleteReplies).1).filter
          PmCall.isDelete =
        (List.range items.length).map (fun i => PmCall.deleteSnapshotCall (snapReplies i).id)) ∧
    (∀ (items : List Nat) (base : Option String) (branchReplies : Nat → Branch)
      (snapReplies : Nat → Snapshot) (fnResults : Nat → Except String Nat)
      (d1 d2 : Nat → Except String Unit),
      (parallelMap items base branchReplies snapReplies fnResults d1).2 =
        (parallelMap items base branchReplies snapReplies fnResults d2).2) ∧
    (∀ (items : List Nat) (bs : String) (branchReplies : Nat → Branch)
      (snapReplies : Nat → Snapshot) (fnResults : Nat → Except String Nat)
      (deleteReplies : Nat → Except String Unit), items ≠ [] → bs ≠ "" →
      ((parallelMap items (some bs) branchReplies snapReplies fnResults deleteReplies).1).filter
          PmCall.isDelete = [] ∧
      (parallelMap items (some bs) branchReplies snapReplies fnResults deleteReplies).1 =
        (List.range items.length).map (fun _ => PmCall.createBranchCall bs)) := by
  refine ⟨?_, ?_, ?_⟩
  · intro items branchReplies snapReplies fnResults deleteReplies
    show ((pmRunBody items.length fnResults deleteReplies _ _).1).filter PmCall.isDelete = _
    unfold pmRunBody
    simp only [List.filter_append, filter_isDelete_map_create, filter_isDelete_map_fn,
      filter_isDelete_map_del, List.nil_append]
    rw [List.map_map]
    exact List.map_congr_left fun i _ => rfl
  · intro items base branchReplies snapReplies fnResults d1 d2
    unfold parallelMap
    by_cases hb : truthyOptStr base = true
    · rw [if_pos hb, if_pos hb]
      cases exceptSequence (((List.range items.length).map branchReplies).map (fun b =>
          snapshotKwargs (some b.snapshot_id) none none none none none none none)) with
      | error e => rfl
      | ok snapshots => rfl
    · rw [if_neg hb, if_neg hb]
      rfl
  · intro items bs branchReplies snapReplies fnResults deleteReplies hne hbs
    obtain ⟨x, xs, rfl⟩ : ∃ x xs, items = x :: xs := by
      cases items with
      | nil => exact absurd rfl hne
      | cons x xs => exact ⟨x, xs, rfl⟩
    have hb : truthyOptStr (some bs) = true := by
      simp only [truthyOptStr, Bool.not_eq_true']
      rw [Bool.eq_false_iff]
      intro hcontra
      exact hbs ((String.isEmpty_iff bs).mp hcontra)
    have hrange : List.range (x :: xs).length = 0 :: (List.range xs.length).map Nat.succ := by
      rw [List.length_cons, List.range_succ_eq_map]
    have hseq : exceptSequence (((List.range (x :: xs).length).map branchReplies).map (fun b =>
        snapshotKwargs (some b.snapshot_id) none none none none none none none)) =
        .error (.typeError
          "Snapshot.__init__ missing required positional arguments: parent_id, mode, created_at, size, memory_pages, checksum") := by
      rw [hrange]
      rfl
    constructor
    · unfold parallelMap
      rw [if_pos hb, hseq]
      exact filter_isDelete_map_createBranch _ _
    · unfold parallelMap
      rw [if_pos hb, hseq]
      rfl

/-- C6 counterexample: `parallel_map` over the single-item list with
`base_snapshot = snap-1` creates one branch and then raises, issuing zero
cleanup calls for the one branch/snapshot it created — refuting that a cleanup
call is issued for every one of the N created snapshots/branches. -/
theorem c6_counterexample :
    (parallelMap [0] (some "snap-1") (fun _ => ⟨"b0", "s0", none, 0, "snap-1", none⟩)
        (fun _ => ⟨"s", none, .ephemeral, 0, 0, none, "c", none⟩)
        (fun _ => (.ok 0 : Except String Nat)) (fun _ => .ok ())).1 =
      [PmCall.createBranchCall "snap-1"] ∧
    ((parallelMap [0] (some "snap-1") (fun _ => ⟨"b0", "s0", none, 0, "snap-1", none⟩)
        (fun _ => ⟨"s", none, .ephemeral, 0, 0, none, "c", none⟩)
        (fun _ => (.ok 0 : Except String Nat)) (fun _ => .ok ())).1).filter
      PmCall.isDelete = [] ∧
    (parallelMap [0] (some "snap-1") (fun _ => ⟨"b0", "s0", none, 0, "snap-1", none⟩)
        (fun _ => ⟨"s", none, .ephemeral, 0, 0, none, "c", none⟩)
        (fun _ => (.ok 0 : Except String Nat)) (fun _ => .ok ())).2 =
      .error (.typeError
        "Snapshot.__init__ missing required positional arguments: parent_id, mode, created_at, size, memory_pages, checksum") :=
  ⟨rfl, rfl, rfl⟩

/-- C6 witness: over two items with `base_snapshot = None` and a worker that
raises on the first item, the trace still contains exactly the two cleanup
deletes of the two created snapshots. -/
theorem c6_witness :
    ((parallelMap [10, 20] none (fun _ => ⟨"b0", "s0", none, 0, "d", none⟩)
        (fun i => ⟨"snap-" ++ toString i, none, .ephemeral, 0, 0, none, "c", none⟩)
        (fun i => if i = 0 then (.error "worker failed" : Except String Nat) else .ok 1)
        (fun _ => .error "cleanup failed")).1).filter PmCall.isDelete =
      (List.range 2).map (fun i => PmCall.deleteSnapshotCall ("snap-" ++ toString i)) ∧
    (parallelMap [10, 20] none (fun _ => ⟨"b0", "s0", none, 0, "d", none⟩)
        (fun i => ⟨"snap-" ++ toString i, none, .ephemeral, 0, 0, none, "c", none⟩)
        (fun i => if i = 0 then (.error "worker failed" : Except String Nat) else .ok 1)
        (fun _ => .error "cleanup failed")).2 =
      (parallelMap [10, 20] none (fun _ => ⟨"b0", "s0", none, 0, "d", none⟩)
        (fun i => ⟨"snap-" ++ toString i, none, .ephemeral, 0, 0, none, "c", none⟩)
        (fun i => if i = 0 then (.error "worker failed" : Except String Nat) else .ok 1)
        (fun _ => .ok ())).2 ∧
    ([10, 20] ≠ ([] : List Nat) ∧ ("snap-1" : String) ≠ "" ∧
      ((parallelMap [10, 20] (some "snap-1") (fun _ => ⟨"b0", "s0", none, 0, "d", none⟩)
          (fun i => ⟨"snap-" ++ toString i, none, .ephemeral, 0, 0, none, "c", none⟩)
          (fun i => if i = 0 then (.error "worker failed" : Except String Nat) else .ok 1)
          (fun _ => .ok ())).1).filter PmCall.isDelete = []) :=
  ⟨c6_parallel_map_cleanup.1 [10, 20] (fun _ => ⟨"b0", "s0", none, 0, "d", none⟩)
      (fun i => ⟨"snap-" ++ toString i, none, .ephemeral, 0, 0, none, "c", none⟩)
      (fun i => if i = 0 then (.error "worker failed" : Except String Nat) else .ok 1)
      (fun _ => .error "cleanup failed"),
   c6_parallel_map_cleanup.2.1 [10, 20] none (fun _ => ⟨"b0", "s0", none, 0, "d", none⟩)
      (fun i => ⟨"snap-" ++ toString i, none, .ephemeral, 0, 0, none, "c", none⟩)
      (fun i => if i = 0 then (.error "worker failed" : Except String Nat) else .ok 1)
      (fun _ => .error "cleanup failed") (fun _ => .ok ()),
   by decide, by decide,
   (c6_parallel_map_cleanup.2.2 [10, 20] "snap-1" (fun _ => ⟨"b0", "s0", none, 0, "d", none⟩)
      (fun i => ⟨"snap-" ++ toString i, none, .ephemeral, 0, 0, none, "c", none⟩)
      (fun i => if i = 0 then (.error "worker failed" : Except String Nat) else .ok 1)
      (fun _ => .ok ()) (by decide) (by decide)).1⟩

/-- C9 (amended): with a truthy `base_snapshot` — non-None and non-empty, since
the code guards with Python truthiness (`if base_snapshot:`) rather than a
None check — and a non-empty item list, `parallel_map` fails with the
`TypeError` of `Snapshot(id=b.snapshot_id, **{})` — the `Snapshot` dataclass
requires `parent_id`, `mode`, `created_at`, `size`, `memory_pages` and
`checksum`, none of which are supplied — and the trace contains no worker
invocation: the error is raised before `fn` runs on any item. -/
theorem c9_parallel_map_typeerror (items : List Nat) (bs : String)
    (branchReplies : Nat → Branch) (snapReplies : Nat → Snapshot)
    (fnResults : Nat → Except String Nat) (deleteReplies : Nat → Except String Unit)
    (hne : items ≠ []) (hbs : bs ≠ "") :
    (parallelMap items (some bs) branchReplies snapReplies fnResults deleteReplies).2 =
      .error (.typeError
        "Snapshot.__init__ missing required positional arguments: parent_id, mode, created_at, size, memory_pages, checksum") ∧
    ((parallelMap items (some bs) branchReplies snapReplies fnResults deleteReplies).1).filter
      PmCall.isFn = [] ∧
    snapshotKwargs (some (branchReplies 0).snapshot_id) none none none none none none none =
      .error (.typeError
        "Snapshot.__init__ missing required positional arguments: parent_id, mode, created_at, size, memory_pages, checksum") := by
  obtain ⟨x, xs, rfl⟩ : ∃ x xs, items = x :: xs := by
    cases items with
    | nil => exact absurd rfl hne
    | cons x xs => exact ⟨x, xs, rfl⟩
  have hb : truthyOptStr (some bs) = true := by
    simp only [truthyOptStr, Bool.not_eq_true']
    rw [Bool.eq_false_iff]
    intro hcontra
    exact hbs ((String.isEmpty_iff bs).mp hcontra)
  have hrange : List.range (x :: xs).length = 0 :: (List.range xs.length).map Nat.succ := by
    rw [List.length_cons, List.range_succ_eq_map]
  have hseq : exceptSequence (((List.range (x :: xs).length).map branchReplies).map (fun b =>
      snapshotKwargs (some b.snapshot_id) none none none none none none none)) =
      .error (.typeError
        "Snapshot.__init__ missing required positional arguments: parent_id, mode, created_at, size, memory_pages, checksum") := by
    rw [hrange]
    rfl
  refine ⟨?_, ?_, rfl⟩
  · unfold parallelMap
    rw [if_pos hb, hseq]
  · unfold parallelMap
    rw [if_pos hb, hseq]
    exact filter_isFn_map_createBranch _ _

/-- C9 witness: the single-item call with base snapshot snap-1 raises the
dataclass `TypeError` with no worker invocation recorded. -/
theorem c9_witness :
    ([0] ≠ ([] : List Nat)) ∧ (("snap-1" : String) ≠ "") ∧
    ((parallelMap [0] (some "snap-1") (fun _ => ⟨"b0", "s0", none, 0, "snap-1", none⟩)
        (fun _ => ⟨"s", none, .ephemeral, 0, 0, none, "c", none⟩)
        (fun _ => (.ok 0 : Except String Nat)) (fun _ => .ok ())).2 =
      .error (.typeError
        "Snapshot.__init__ missing required positional arguments: parent_id, mode, created_at, size, memory_pages, checksum") ∧
    ((parallelMap [0] (some "snap-1") (fun _ => ⟨"b0", "s0", none, 0, "snap-1", none⟩)
        (fun _ => ⟨"s", none, .ephemeral, 0, 0, none, "c", none⟩)
        (fun _ => (.ok 0 : Except String Nat)) (fun _ => .ok ())).1).filter
      PmCall.isFn = [] ∧
    snapshotKwargs (some (("s0" : String))) none none none none none none none =
      .error (.typeError
        "Snapshot.__init__ missing required positional arguments: parent_id, mode, created_at, size, memory_pages, checksum")) :=
  ⟨by decide, by decide,
   c9_parallel_map_typeerror [0] "snap-1" (fun _ => ⟨"b0", "s0", none, 0, "snap-1", none⟩)
      (fun _ => ⟨"s", none, .ephemeral, 0, 0, none, "c", none⟩)
      (fun _ => (.ok 0 : Except String Nat)) (fun _ => .ok ()) (by decide) (by decide)⟩

/-- C9 counterexample: the empty string is a non-None `base_snapshot`, yet
`parallel_map` over the non-empty list with `base_snapshot = ""` raises no
`TypeError`: the guard `if base_snapshot:` tests Python truthiness, so the
empty string takes the `create_snapshot` path, the worker runs on the item and
the call succeeds — refuting the claim as quantified over every non-None
`base_snapshot` argument. -/
theorem c9_empty_base_counterexample :
    (parallelMap [0] (some "") (fun _ => ⟨"b0", "s0", none, 0, "d", none⟩)
        (fun _ => ⟨"s", none, .ephemeral, 0, 0, none, "c", none⟩)
        (fun _ => (.ok 7 : Except String Nat)) (fun _ => .ok ())).2 = .ok [7] ∧
    ((parallelMap [0] (some "") (fun _ => ⟨"b0", "s0", none, 0, "d", none⟩)
        (fun _ => ⟨"s", none, .ephemeral, 0, 0, none, "c", none⟩)
        (fun _ => (.ok 7 : Except String Nat)) (fun _ => .ok ())).1).filter
      PmCall.isFn = [PmCall.fnCall 0] :=
  ⟨rfl, rfl⟩

/-- C7: the derived metric rates equal the counter quotients, are 0 with no
requests, `cache_hit_rate` is exactly 0 on a fresh client, and after one
cached request (measured latency below the 10 ms heuristic threshold) and one
uncached request — each a single-attempt successful `execute` call — the
cache-hit rate is exactly one half. -/
theorem c7_metrics_rates :
    (∀ m : ClientMetrics, m.total_requests = 0 →
      m.cache_hit_rate = 0 ∧ m.average_latency_ms = 0 ∧ m.error_rate = 0) ∧
    (∀ m : ClientMetrics, m.total_requests ≠ 0 →
      m.cache_hit_rate = (m.cache_hits : ℚ) / (m.total_requests : ℚ) ∧
      m.average_latency_ms = (m.total_latency_ms : ℚ) / (m.total_requests : ℚ) ∧
      m.error_rate = (m.errors : ℚ) / (m.total_requests : ℚ)) ∧
    (({} : ClientMetrics).cache_hit_rate = 0) ∧
    (((pyExecuteFrom (pyExecuteFrom {} (fun _ => .httpResp 200 "" 5 {}) .auto 3).metrics
        (fun _ => .httpResp 200 "" 50 {}) .auto 3).metrics).cache_hit_rate = 1 / 2) := by
  refine ⟨?_, ?_, ?_, ?_⟩
  · intro m h
    simp [ClientMetrics.cache_hit_rate, ClientMetrics.average_latency_ms,
      ClientMetrics.error_rate, h]
  · intro m h
    simp [ClientMetrics.cache_hit_rate, ClientMetrics.average_latency_ms,
      ClientMetrics.error_rate, h]
  · rfl
  · show ((⟨2, 1, 55, 0⟩ : ClientMetrics).cache_hit_rate) = 1 / 2
    show ((1 : Nat) : ℚ) / ((2 : Nat) : ℚ) = 1 / 2
    norm_num

/-- C7 witness: the rate laws instantiated on fresh metrics and on the
two-request state reached in the cached-then-uncached scenario. -/
theorem c7_witness :
    (({} : ClientMetrics).cache_hit_rate = 0 ∧
      ({} : ClientMetrics).average_latency_ms = 0 ∧
      ({} : ClientMetrics).error_rate = 0) ∧
    ((⟨2, 1, 55, 0⟩ : ClientMetrics).cache_hit_rate =
        (((⟨2, 1, 55, 0⟩ : ClientMetrics).cache_hits : ℚ) /
          ((⟨2, 1, 55, 0⟩ : ClientMetrics).total_requests : ℚ)) ∧
      (⟨2, 1, 55, 0⟩ : ClientMetrics).average_latency_ms =
        (((⟨2, 1, 55, 0⟩ : ClientMetrics).total_latency_ms : ℚ) /
          ((⟨2, 1, 55, 0⟩ : ClientMetrics).total_requests : ℚ)) ∧
      (⟨2, 1, 55, 0⟩ : ClientMetrics).error_rate =
        (((⟨2, 1, 55, 0⟩ : ClientMetrics).errors : ℚ) /
          ((⟨2, 1, 55, 0⟩ : ClientMetrics).total_requests : ℚ))) :=
  ⟨c7_metrics_rates.1 {} rfl, c7_metrics_rates.2.1 ⟨2, 1, 55, 0⟩ (by decide)⟩

/-! ### Fastest-branch selection lemmas -/

theorem exists_min_duration :
    ∀ (l : List ForkBranchResult), l ≠ [] →
    ∃ r, r ∈ l ∧ ∀ r2 ∈ l, r.duration_ms ≤ r2.duration_ms := by
  intro l
  induction l with
  | nil => intro h; exact absurd rfl h
  | cons a xs ih =>
    intro _
    cases hxs : xs with
    | nil =>
      refine ⟨a, List.mem_cons_self a [], ?_⟩
      intro r2 h2
      rcases List.mem_cons.mp h2 with rfl | h2
      · exact le_refl _
      · exact absurd h2 (List.not_mem_nil r2)
    | cons b ys =>
      obtain ⟨r, hr, hmin⟩ := ih (by rw [hxs]; exact List.cons_ne_nil b ys)
      rw [← hxs]
      by_cases hle : a.duration_ms ≤ r.duration_ms
      · refine ⟨a, List.mem_cons_self a xs, ?_⟩
        intro r2 h2
        rcases List.mem_cons.mp h2 with rfl | h2
        · exact le_refl _
        · exact le_trans hle (hmin r2 h2)
      · refine ⟨r, List.mem_cons_of_mem a hr, ?_⟩
        intro r2 h2
        rcases List.mem_cons.mp h2 with rfl | h2
        · omega
        · exact hmin r2 h2

theorem find?_decomp {α : Type _} (p : α → Bool) :
    ∀ (l : List α) (w : α), l.find? p = some w →
    ∃ l1 l2, l = l1 ++ w :: l2 ∧ ∀ x ∈ l1, p x = false := by
  intro l
  induction l with
  | nil => intro w h; simp [List.find?] at h
  | cons a xs ih =>
    intro w h
    by_cases hp : p a = true
    · rw [List.find?_cons_of_pos _ hp] at h
      obtain rfl : a = w := by injection h
      exact ⟨[], xs, rfl, fun x hx => absurd hx (List.not_mem_nil x)⟩
    · rw [List.find?_cons_of_neg _ hp] at h
      obtain ⟨l1, l2, rfl, hl1⟩ := ih w h
      refine ⟨a :: l1, l2, rfl, ?_⟩
      intro x hx
      rcases List.mem_cons.mp hx with rfl | hx
      · exact Bool.eq_false_iff.mpr hp
      · exact hl1 x hx

/-- C8: under the `fastest` strategy the coordinator selects a branch of the
result set with the minimum reported duration, and every branch declared
before the winner has a strictly greater duration (ties are broken by
declaration order); in particular over reported durations 500 ms and 50 ms
the 50 ms branch is selected. -/
theorem c8_fastest_selection :
    (∀ l : List ForkBranchResult, l ≠ [] →
      ∃ w, forkSelect .fastest l = some w ∧ w ∈ l ∧
        (∀ r ∈ l, w.duration_ms ≤ r.duration_ms) ∧
        ∃ l1 l2, l = l1 ++ w :: l2 ∧ ∀ r ∈ l1, w.duration_ms < r.duration_ms) ∧
    forkSelect .fastest [⟨"slow", 500, none⟩, ⟨"fast", 50, none⟩] =
      some ⟨"fast", 50, none⟩ := by
  constructor
  · intro l hl
    obtain ⟨r, hrmem, hrmin⟩ := exists_min_duration l hl
    have hp : (l.all (fun r2 => r.duration_ms ≤ r2.duration_ms)) = true := by
      rw [List.all_eq_true]
      intro r2 h2
      exact decide_eq_true (hrmin r2 h2)
    have hsome : (l.find? (fun x => l.all (fun r2 => x.duration_ms ≤ r2.duration_ms))).isSome := by
      rw [List.find?_isSome]
      exact ⟨r, hrmem, hp⟩
    obtain ⟨w, hw⟩ := Option.isSome_iff_exists.mp hsome
    have hpw := List.find?_some hw
    simp only [] at hpw
    have hwmem : w ∈ l := List.mem_of_find?_eq_some hw
    have hwmin : ∀ r2 ∈ l, w.duration_ms ≤ r2.duration_ms := by
      rw [List.all_eq_true] at hpw
      intro r2 h2
      exact of_decide_eq_true (hpw r2 h2)
    obtain ⟨l1, l2, heq, hl1⟩ := find?_decomp _ l w hw
    refine ⟨w, hw, hwmem, hwmin, l1, l2, heq, ?_⟩
    intro r1 h1
    have hnall : ¬ (l.all (fun r2 => r1.duration_ms ≤ r2.duration_ms)) = true := by
      rw [Bool.not_eq_true]
      exact hl1 r1 h1
    rw [List.all_eq_true] at hnall
    push_neg at hnall
    obtain ⟨r2, h2, hlt⟩ := hnall
    have hr2 : r2.duration_ms < r1.duration_ms := by
      have := of_decide_eq_true (p := r1.duration_ms ≤ r2.duration_ms)
      by_cases hd : r1.duration_ms ≤ r2.duration_ms
      · exact absurd (decide_eq_true hd) hlt
      · omega
    exact lt_of_le_of_lt (hwmin r2 h2) hr2
  · decide

/-- C8 witness: the general selection law applied to the concrete two-branch
fork with durations 500 ms and 50 ms. -/
theorem c8_witness :
    ([(⟨"slow", 500, none⟩ : ForkBranchResult), ⟨"fast", 50, none⟩] ≠ []) ∧
    (∃ w, forkSelect .fastest
        [(⟨"slow", 500, none⟩ : ForkBranchResult), ⟨"fast", 50, none⟩] = some w ∧
      w ∈ [(⟨"slow", 500, none⟩ : ForkBranchResult), ⟨"fast", 50, none⟩] ∧
      (∀ r ∈ [(⟨"slow", 500, none⟩ : ForkBranchResult), ⟨"fast", 50, none⟩],
        w.duration_ms ≤ r.duration_ms) ∧
      ∃ l1 l2, [(⟨"slow", 500, none⟩ : ForkBranchResult), ⟨"fast", 50, none⟩] =
          l1 ++ w :: l2 ∧ ∀ r ∈ l1, w.duration_ms < r.duration_ms) :=
  ⟨by decide,
   c8_fastest_selection.1 [⟨"slow", 500, none⟩, ⟨"fast", 50, none⟩] (by decide)⟩

end FaasSDK
